import Mathlib

/-!
Shallow embedding of the funding-rate monitor (files `business_core.py`,
`binance_client.py`, `config.py` of version 6.1.6).

Numeric values that the Python code holds as floats are embedded as real
numbers (`ℝ`); pandas statistics (`Series.mean`, `Series.std`) are embedded
by their defining formulas (sample mean, sample standard deviation with the
`n-1` divisor, which is the pandas default `ddof=1`).  Python dictionaries
(which preserve insertion order) are embedded as association lists, and a
per-symbol slice of the core state as a small structure.  Wall-clock times
(`time.time()`) are passed explicitly as real-valued parameters.
-/

/- ====================  config.py  ==================== -/

/-- config.MOVING_AVERAGE_WINDOW (config.py line 70). -/
def MOVING_AVERAGE_WINDOW : ℕ := 512

/-- config.TOP_RANKING_COUNT (config.py line 36). -/
def TOP_RANKING_COUNT : ℕ := 5

/-- BusinessCore.champion_ttl = 15 * 60 seconds (business_core.py line 53). -/
noncomputable def champion_ttl : ℝ := 15 * 60

/- ====================  pandas statistics  ==================== -/

/-- pandas `Series.mean()`: the sample mean of the values. -/
noncomputable def sampleMean (l : List ℝ) : ℝ := l.sum / l.length

/-- The sample variance with the `n-1` divisor (pandas default `ddof=1`);
for a one-element list the divisor is zero and the embedded value is `0`
(pandas would give NaN; every call site guards the length first). -/
noncomputable def sampleVar (l : List ℝ) : ℝ :=
  (l.map (fun x => (x - sampleMean l) ^ 2)).sum / ((l.length - 1 : ℕ) : ℝ)

/-- pandas `Series.std()`: square root of the sample variance (`ddof=1`). -/
noncomputable def sampleStd (l : List ℝ) : ℝ := Real.sqrt (sampleVar l)

/- ====================  business_core.py: scoring  ==================== -/

/-- BusinessCore._calculate_current_zscore (business_core.py lines 313-338),
for a symbol whose history is present: 0.0 when fewer than 3 retained
points, otherwise the historical partition is every point but the most
recent (`iloc[:-1]`), the current rate is the most recent point
(`iloc[-1]`), and the result is `abs((current - mean) / std)` unless the
historical partition has fewer than 2 points or its standard deviation is
below 1e-10 (the `pd.isna` branch cannot fire here: the partition has at
least 2 points, so its std is a genuine number). -/
noncomputable def calcCurrentZscore (history : List ℝ) : ℝ :=
  if history.length < 3 then 0
  else
    let historical := history.dropLast
    let current_rate := history.getLast?.getD 0
    if historical.length < 2 then 0
    else
      let moving_average := sampleMean historical
      let std_dev := sampleStd historical
      if std_dev < 1e-10 then 0
      else |(current_rate - moving_average) / std_dev|

/-- The statistics part of BusinessCore._calculate_volatility
(business_core.py lines 195-216): `none` on each early return (history
shorter than 3, historical partition shorter than 2, standard deviation
below 1e-10), otherwise `some (z_score, moving_average, std_dev)` with
`z_score = (new_rate - moving_average) / std_dev` computed over the
historical partition `iloc[:-1]`. -/
noncomputable def calcVolatilityStats (history : List ℝ) (new_rate : ℝ) :
    Option (ℝ × ℝ × ℝ) :=
  if history.length < 3 then none
  else
    let historical := history.dropLast
    if historical.length < 2 then none
    else
      let moving_average := sampleMean historical
      let std_dev := sampleStd historical
      if std_dev < 1e-10 then none
      else some ((new_rate - moving_average) / std_dev, moving_average, std_dev)

/- ====================  champion records  ==================== -/

/-- The per-symbol champion dict stored in BusinessCore.champion_records
(business_core.py lines 234-243). -/
structure ChampionRecord where
  max_volatility : ℝ
  z_score : ℝ
  moving_average : ℝ
  std_dev : ℝ
  champion_old_rate : ℝ
  champion_new_rate : ℝ
  champion_timestamp : ℝ
  champion_age_hours : ℝ

/-- Expiry of a champion record (business_core.py lines 221-225): the record
is deleted when its age `now - champion_timestamp` strictly exceeds the TTL. -/
noncomputable def expireChampion (rec : Option ChampionRecord) (now ttl : ℝ) :
    Option ChampionRecord :=
  match rec with
  | some r => if now - r.champion_timestamp > ttl then none else some r
  | none => none

/-- The champion update of BusinessCore._calculate_volatility
(business_core.py lines 218-250), given an already-computed score: first the
expired record is discarded; then a new record (with `champion_age_hours`
reset) is stored when no record remains or the new score is strictly
greater; otherwise the surviving record is kept with its
`champion_age_hours` refreshed (line 250). -/
noncomputable def champStep (rec : Option ChampionRecord)
    (current_volatility z_score moving_average std_dev old_rate new_rate now ttl : ℝ) :
    ChampionRecord :=
  match expireChampion rec now ttl with
  | none =>
      { max_volatility := current_volatility, z_score := z_score,
        moving_average := moving_average, std_dev := std_dev,
        champion_old_rate := old_rate, champion_new_rate := new_rate,
        champion_timestamp := now, champion_age_hours := 0 }
  | some r =>
      if current_volatility > r.max_volatility then
        { max_volatility := current_volatility, z_score := z_score,
          moving_average := moving_average, std_dev := std_dev,
          champion_old_rate := old_rate, champion_new_rate := new_rate,
          champion_timestamp := now, champion_age_hours := 0 }
      else
        { r with champion_age_hours := (now - r.champion_timestamp) / 3600 }

/-- BusinessCore._calculate_volatility (business_core.py lines 190-263) as a
champion-record transformer: on any early return of the statistics part the
record is untouched (in particular an expired record is NOT yet deleted
then); otherwise the champion update runs with the score `abs z`. -/
noncomputable def calcVolatilityUpd (history : List ℝ) (rec : Option ChampionRecord)
    (old_rate new_rate now ttl : ℝ) : Option ChampionRecord :=
  match calcVolatilityStats history new_rate with
  | none => rec
  | some (z, ma, sd) =>
      some (champStep rec |z| z ma sd old_rate new_rate now ttl)

/- ====================  rolling window and ingest  ==================== -/

/-- The history update of BusinessCore._process_single_item (business_core.py
lines 124-136): append the new rate, then keep only the last `window_size`
points (`iloc[-window_size:]`) when the length exceeds the window. -/
def pushWindow (history : List ℝ) (new_rate : ℝ) (window_size : ℕ) : List ℝ :=
  let h := history ++ [new_rate]
  if window_size < h.length then h.drop (h.length - window_size) else h

/-- The slice of BusinessCore state for one symbol: its entry in
current_rates (absent before the first observation), rate_history and
champion_records. -/
structure SymState where
  current_rate : Option ℝ
  history : List ℝ
  champion : Option ChampionRecord

/-- BusinessCore._process_single_item (business_core.py lines 106-149) for a
validated observation of one symbol: the previous rate defaults to the new
rate on first observation (`current_rates.get(symbol, new_rate)`), the
current rate and the rolling window are always updated, and the volatility /
champion computation runs only when the rate actually changed
(`abs(new_rate - old_rate) > 1e-9`). -/
noncomputable def processRate (st : SymState) (new_rate now ttl : ℝ)
    (window_size : ℕ) : SymState :=
  let old_rate := st.current_rate.getD new_rate
  let history := pushWindow st.history new_rate window_size
  if |new_rate - old_rate| > 1e-9 then
    { current_rate := some new_rate, history := history,
      champion := calcVolatilityUpd history st.champion old_rate new_rate now ttl }
  else
    { current_rate := some new_rate, history := history, champion := st.champion }

/-- A whole stream of observations for one symbol ingested in order,
starting from the empty (never seen) state. -/
noncomputable def ingestSym (stream : List ℝ) (now ttl : ℝ) (window_size : ℕ) :
    SymState :=
  stream.foldl (fun st r => processRate st r now ttl window_size)
    ⟨none, [], none⟩

/- ====================  BusinessCore state and ranking  ==================== -/

/-- The shared BusinessCore state read by the ranking loop: the
insertion-ordered dicts current_rates, rate_history, champion_records
(Python dicts preserve insertion order) and the published ranking
top5_symbols (business_core.py lines 27-33). -/
structure CoreState where
  current_rates : List (String × ℝ)
  rate_history : List (String × List ℝ)
  champion_records : List (String × ChampionRecord)
  top5_symbols : List String

/-- `self.champion_records.get(symbol)`. -/
def lookupChampion (s : CoreState) (sym : String) : Option ChampionRecord :=
  (s.champion_records.find? (fun p => p.1 == sym)).map Prod.snd

/-- `self.rate_history.get(symbol)`. -/
def lookupHistory (s : CoreState) (sym : String) : Option (List ℝ) :=
  (s.rate_history.find? (fun p => p.1 == sym)).map Prod.snd

/-- BusinessCore._calculate_current_zscore including the `history_series is
None` guard (business_core.py lines 316-318). -/
noncomputable def currentZscoreOf (s : CoreState) (sym : String) : ℝ :=
  match lookupHistory s sym with
  | none => 0
  | some h => calcCurrentZscore h

/-- The per-symbol score derived by BusinessCore._update_top5_ranking
(business_core.py lines 281-289): the champion record's max_volatility while
`now - champion_timestamp <= ttl`, otherwise the live recomputation. -/
noncomputable def reportedScore (s : CoreState) (now ttl : ℝ) (sym : String) : ℝ :=
  match lookupChampion s sym with
  | some champion_info =>
      if now - champion_info.champion_timestamp ≤ ttl then
        champion_info.max_volatility
      else currentZscoreOf s sym
  | none => currentZscoreOf s sym

/-- The ranking_data list built by BusinessCore._update_top5_ranking
(business_core.py lines 279-292): one `(symbol, score)` pair per key of
current_rates, keeping only strictly positive scores. -/
noncomputable def rankingData (s : CoreState) (now ttl : ℝ) : List (String × ℝ) :=
  (s.current_rates.map (fun p => (p.1, reportedScore s now ttl p.1))).filter
    (fun p => decide (0 < p.2))

/-- Descending-score order on ranking pairs. -/
def rankDescRel (a b : String × ℝ) : Prop := b.2 ≤ a.2

noncomputable instance : DecidableRel rankDescRel :=
  fun a b => inferInstanceAs (Decidable (b.2 ≤ a.2))

instance : IsTotal (String × ℝ) rankDescRel := ⟨fun a b => le_total b.2 a.2⟩

instance : IsTrans (String × ℝ) rankDescRel :=
  ⟨fun _ _ _ h1 h2 => le_trans h2 h1⟩

/-- The sort of BusinessCore._update_top5_ranking (business_core.py lines
294-300): `np.argsort(scores)[::-1]` orders the pairs by descending score.
numpy's tie order among equal scores is unspecified but deterministic; the
embedding fixes insertion sort as one deterministic realisation. -/
noncomputable def sortByScoreDesc (l : List (String × ℝ)) : List (String × ℝ) :=
  List.insertionSort rankDescRel l

/-- The new_top5 list of BusinessCore._update_top5_ranking (business_core.py
lines 302-304): the symbols of the first `min(TOP_RANKING_COUNT, length)`
sorted pairs. -/
noncomputable def newTop5 (s : CoreState) (now ttl : ℝ) (top_ranking_count : ℕ) :
    List String :=
  let sorted := sortByScoreDesc (rankingData s now ttl)
  let top_count := min top_ranking_count sorted.length
  (sorted.take top_count).map Prod.fst

/-- BusinessCore._update_top5_ranking (business_core.py lines 274-308): when
ranking_data is empty (`if ranking_data:`) nothing at all is updated;
otherwise top5_symbols is replaced by new_top5 only when it differs. -/
noncomputable def updateTop5Ranking (s : CoreState) (now ttl : ℝ)
    (top_ranking_count : ℕ) : CoreState :=
  let ranking_data := rankingData s now ttl
  if ranking_data.isEmpty then s
  else
    let new_top5 := newTop5 s now ttl top_ranking_count
    if new_top5 ≠ s.top5_symbols then { s with top5_symbols := new_top5 } else s

/- ====================  binance_client.py  ==================== -/

/-- BinanceWebSocketClient.BACKUP_HOSTS (binance_client.py lines 25-29). -/
def BACKUP_HOSTS : List String :=
  ["fstream.binance.com", "fstream1.binance.com", "fstream2.binance.com"]

/-- BinanceWebSocketClient._switch_to_next_host (binance_client.py lines
223-227): the host cursor advances by one, wrapping around the host list. -/
def switchToNextHost (current_host_index : ℕ) : ℕ :=
  (current_host_index + 1) % BACKUP_HOSTS.length

/-- The host selected by a cursor value (binance_client.py line 220). -/
def currentHostOf (current_host_index : ℕ) : String :=
  BACKUP_HOSTS.getD current_host_index ""

/-- One received frame, embedded by its decode outcome: `json.loads` either
yields a payload or raises JSONDecodeError.  The JSON text itself plays no
role in the control flow of _process_message, so the frame is carried as its
decode outcome with an abstract payload type. -/
inductive Frame (α : Type) where
  | decoded (payload : α)
  | undecodable

/-- The payload of a frame, when it decodes. -/
def Frame.payload : Frame α → Option α
  | .decoded a => some a
  | .undecodable => none

/-- The message-processing state of BinanceWebSocketClient: the message
counter and the payloads handed to the data handler, in order. -/
structure MsgLoopState (α : Type) where
  message_count : ℕ
  handled : List α

/-- BinanceWebSocketClient._process_message (binance_client.py lines
185-197): the counter is incremented first (line 188), then the frame is
decoded; a decode failure is caught and logged and the method returns
normally (the receive loop continues), and only a successful decode reaches
the data handler. -/
def processMessage (st : MsgLoopState α) (frame : Frame α) : MsgLoopState α :=
  let st := { st with message_count := st.message_count + 1 }
  match frame with
  | .decoded payload => { st with handled := st.handled ++ [payload] }
  | .undecodable => st

/-- The receive loop (binance_client.py lines 159-183) over a list of
delivered frames: every frame is processed; no decode failure terminates
the loop. -/
def processMessages (st : MsgLoopState α) (frames : List (Frame α)) :
    MsgLoopState α :=
  frames.foldl processMessage st

/- ====================  BusinessCore start/stop  ==================== -/

/-- The lifecycle state of BusinessCore's ranking thread: the thread handle
(business_core.py line 47, never reset to None) and the stop event. -/
structure CoreLifecycle where
  ranking_thread : Option Unit
  stop_event : Bool
deriving DecidableEq

/-- BusinessCore.start (business_core.py lines 57-63): only when no thread
handle exists, the stop event is cleared and a thread is created and
recorded; otherwise nothing happens. -/
def coreStart (s : CoreLifecycle) : CoreLifecycle :=
  match s.ranking_thread with
  | none => { ranking_thread := some (), stop_event := false }
  | some _ => s

/-- BusinessCore.stop (business_core.py lines 65-71): sets the stop event
and joins the thread; the thread handle is NOT cleared. -/
def coreStop (s : CoreLifecycle) : CoreLifecycle :=
  { s with stop_event := true }

/- ====================  concrete scenario states  ==================== -/

/-- A champion record created at wall-clock time 0 with score 1 (as produced
by an earlier champion update); by time 1000 it is older than the 900s TTL. -/
noncomputable def expiredRec : ChampionRecord :=
  { max_volatility := 1, z_score := 1, moving_average := 3 / 2, std_dev := 1,
    champion_old_rate := 2, champion_new_rate := 3, champion_timestamp := 0,
    champion_age_hours := 0 }

/-- A core state whose only symbol holds an expired champion record while its
current window [1,2,3,5] yields the live score |(5-2)/1| = 3. -/
noncomputable def expiredState : CoreState :=
  { current_rates := [("AAAUSDT", 5)],
    rate_history := [("AAAUSDT", [1, 2, 3, 5])],
    champion_records := [("AAAUSDT", expiredRec)],
    top5_symbols := [] }

/-- A core state reachable after a champion expired and the rate reverted to
the historical mean: the published ranking still lists the symbol, but its
live score over the window [1,2,3,2] is |(2-2)/1| = 0. -/
noncomputable def staleState : CoreState :=
  { current_rates := [("AAAUSDT", 2)],
    rate_history := [("AAAUSDT", [1, 2, 3, 2])],
    champion_records := [("AAAUSDT", expiredRec)],
    top5_symbols := ["AAAUSDT"] }

/-- A core state with no champion record whose only symbol has a positive
live score |(5-2)/1| = 3. -/
noncomputable def posState : CoreState :=
  { current_rates := [("AAAUSDT", 5)],
    rate_history := [("AAAUSDT", [1, 2, 3, 5])],
    champion_records := [],
    top5_symbols := [] }

/- ====================  helper lemmas  ==================== -/

lemma sampleMean_123 : sampleMean [1, 2, 3] = 2 := by
  simp [sampleMean]
  norm_num

lemma sampleVar_123 : sampleVar [1, 2, 3] = 1 := by
  simp [sampleVar, sampleMean_123]
  norm_num

lemma sampleStd_123 : sampleStd [1, 2, 3] = 1 := by
  rw [sampleStd, sampleVar_123, Real.sqrt_one]

lemma sampleStd_123_ge : ¬ sampleStd [1, 2, 3] < 1e-10 := by
  rw [sampleStd_123]; norm_num

lemma sampleVar_12 : sampleVar [1, 2] = 1 / 2 := by
  simp [sampleVar, sampleMean]
  norm_num

lemma sampleStd_12_ge : ¬ sampleStd [1, 2] < 1e-10 := by
  rw [sampleStd, sampleVar_12]
  exact not_lt.mpr ((Real.le_sqrt' (by norm_num)).mpr (by norm_num))

lemma calcCurrentZscore_concat (hist : List ℝ) (r : ℝ) (h2 : 2 ≤ hist.length)
    (hsd : ¬ sampleStd hist < 1e-10) :
    calcCurrentZscore (hist ++ [r]) = |(r - sampleMean hist) / sampleStd hist| := by
  unfold calcCurrentZscore
  rw [if_neg (by simp; omega)]
  simp only [List.dropLast_concat, List.getLast?_concat, Option.getD_some]
  rw [if_neg (by omega), if_neg hsd]

lemma calcCurrentZscore_1235 : calcCurrentZscore [1, 2, 3, 5] = 3 := by
  have h : ([1, 2, 3, 5] : List ℝ) = [1, 2, 3] ++ [5] := rfl
  rw [h, calcCurrentZscore_concat [1, 2, 3] 5 (by norm_num) sampleStd_123_ge,
    sampleMean_123, sampleStd_123]
  norm_num

lemma calcCurrentZscore_1232 : calcCurrentZscore [1, 2, 3, 2] = 0 := by
  have h : ([1, 2, 3, 2] : List ℝ) = [1, 2, 3] ++ [2] := rfl
  rw [h, calcCurrentZscore_concat [1, 2, 3] 2 (by norm_num) sampleStd_123_ge,
    sampleMean_123, sampleStd_123]
  norm_num

lemma updateTop5Ranking_current_rates (s : CoreState) (now ttl : ℝ) (K : ℕ) :
    (updateTop5Ranking s now ttl K).current_rates = s.current_rates := by
  simp only [updateTop5Ranking]
  split_ifs <;> rfl

lemma updateTop5Ranking_rate_history (s : CoreState) (now ttl : ℝ) (K : ℕ) :
    (updateTop5Ranking s now ttl K).rate_history = s.rate_history := by
  simp only [updateTop5Ranking]
  split_ifs <;> rfl

lemma updateTop5Ranking_champion_records (s : CoreState) (now ttl : ℝ) (K : ℕ) :
    (updateTop5Ranking s now ttl K).champion_records = s.champion_records := by
  simp only [updateTop5Ranking]
  split_ifs <;> rfl

lemma rankingData_eq_of {s t : CoreState} (now ttl : ℝ)
    (h1 : s.current_rates = t.current_rates) (h2 : s.rate_history = t.rate_history)
    (h3 : s.champion_records = t.champion_records) :
    rankingData s now ttl = rankingData t now ttl := by
  unfold rankingData reportedScore currentZscoreOf lookupChampion lookupHistory
  rw [h1, h2, h3]

lemma newTop5_eq_of {s t : CoreState} (now ttl : ℝ) (K : ℕ)
    (h1 : s.current_rates = t.current_rates) (h2 : s.rate_history = t.rate_history)
    (h3 : s.champion_records = t.champion_records) :
    newTop5 s now ttl K = newTop5 t now ttl K := by
  unfold newTop5
  rw [rankingData_eq_of now ttl h1 h2 h3]

lemma updateTop5Ranking_top5_of_ne {s : CoreState} {now ttl : ℝ} {K : ℕ}
    (h : ¬ (rankingData s now ttl).isEmpty = true) :
    (updateTop5Ranking s now ttl K).top5_symbols = newTop5 s now ttl K := by
  simp only [updateTop5Ranking]
  rw [if_neg h]
  by_cases hne : newTop5 s now ttl K ≠ s.top5_symbols
  · rw [if_pos hne]
  · rw [if_neg hne]
    push_neg at hne
    exact hne.symm

lemma mem_rankingData_pos {s : CoreState} {now ttl : ℝ} {p : String × ℝ}
    (h : p ∈ rankingData s now ttl) :
    0 < p.2 ∧ reportedScore s now ttl p.1 = p.2 := by
  unfold rankingData at h
  rw [List.mem_filter] at h
  obtain ⟨hmem, hpos⟩ := h
  obtain ⟨q, _, rfl⟩ := List.mem_map.mp hmem
  exact ⟨of_decide_eq_true hpos, rfl⟩

lemma mem_newTop5_pos {s : CoreState} {now ttl : ℝ} {K : ℕ} {sym : String}
    (h : sym ∈ newTop5 s now ttl K) : 0 < reportedScore s now ttl sym := by
  unfold newTop5 at h
  obtain ⟨p, hp, rfl⟩ := List.mem_map.mp h
  have hp2 : p ∈ sortByScoreDesc (rankingData s now ttl) := List.take_subset _ _ hp
  have hp3 : p ∈ rankingData s now ttl :=
    ((List.perm_insertionSort rankDescRel _).mem_iff).mp hp2
  obtain ⟨hpos, heq⟩ := mem_rankingData_pos hp3
  exact heq ▸ hpos

lemma lookupChampion_posState : lookupChampion posState "AAAUSDT" = none := rfl

lemma lookupHistory_posState :
    lookupHistory posState "AAAUSDT" = some [1, 2, 3, 5] := by
  simp [lookupHistory, posState]

lemma reportedScore_posState : reportedScore posState 1000 900 "AAAUSDT" = 3 := by
  unfold reportedScore
  rw [lookupChampion_posState]
  unfold currentZscoreOf
  rw [lookupHistory_posState]
  exact calcCurrentZscore_1235

lemma lookupChampion_expiredState :
    lookupChampion expiredState "AAAUSDT" = some expiredRec := by
  simp [lookupChampion, expiredState]

lemma lookupHistory_expiredState :
    lookupHistory expiredState "AAAUSDT" = some [1, 2, 3, 5] := by
  simp [lookupHistory, expiredState]

lemma reportedScore_expiredState :
    reportedScore expiredState 1000 900 "AAAUSDT" = 3 := by
  unfold reportedScore
  rw [lookupChampion_expiredState]
  show (if (1000 : ℝ) - expiredRec.champion_timestamp ≤ 900 then expiredRec.max_volatility
    else currentZscoreOf expiredState "AAAUSDT") = 3
  rw [if_neg (by simp [expiredRec]; norm_num)]
  unfold currentZscoreOf
  rw [lookupHistory_expiredState]
  exact calcCurrentZscore_1235

lemma lookupChampion_staleState :
    lookupChampion staleState "AAAUSDT" = some expiredRec := by
  simp [lookupChampion, staleState]

lemma lookupHistory_staleState :
    lookupHistory staleState "AAAUSDT" = some [1, 2, 3, 2] := by
  simp [lookupHistory, staleState]

lemma reportedScore_staleState :
    reportedScore staleState 1000 900 "AAAUSDT" = 0 := by
  unfold reportedScore
  rw [lookupChampion_staleState]
  show (if (1000 : ℝ) - expiredRec.champion_timestamp ≤ 900 then expiredRec.max_volatility
    else currentZscoreOf staleState "AAAUSDT") = 0
  rw [if_neg (by simp [expiredRec]; norm_num)]
  unfold currentZscoreOf
  rw [lookupHistory_staleState]
  exact calcCurrentZscore_1232

lemma rankingData_posState :
    rankingData posState 1000 900 = [("AAAUSDT", 3)] := by
  unfold rankingData
  rw [show posState.current_rates = [("AAAUSDT", (5 : ℝ))] from rfl]
  rw [List.map_cons, List.map_nil, reportedScore_posState]
  rw [List.filter_cons]
  norm_num

lemma rankingData_staleState : rankingData staleState 1000 900 = [] := by
  unfold rankingData
  rw [show staleState.current_rates = [("AAAUSDT", (2 : ℝ))] from rfl]
  rw [List.map_cons, List.map_nil, reportedScore_staleState]
  rw [List.filter_cons]
  norm_num

lemma processRate_history (st : SymState) (r now ttl : ℝ) (W : ℕ) :
    (processRate st r now ttl W).history = pushWindow st.history r W := by
  simp only [processRate]
  split <;> rfl

lemma pushWindow_drop (p : List ℝ) (r : ℝ) (W : ℕ) :
    pushWindow (p.drop (p.length - W)) r W = (p ++ [r]).drop ((p ++ [r]).length - W) := by
  unfold pushWindow
  by_cases hnW : p.length ≤ W
  · have h0 : p.length - W = 0 := by omega
    rw [h0, List.drop_zero]
    by_cases hW : W < (p ++ [r]).length
    · rw [if_pos hW]
    · rw [if_neg hW]
      have h1 : (p ++ [r]).length - W = 0 := by simp at hW ⊢; omega
      rw [h1, List.drop_zero]
  · -- W < p.length: the retained prefix has length exactly W
    by_cases hW0 : W = 0
    · subst hW0
      have h1 : p.length - 0 = p.length := by omega
      rw [h1, List.drop_length]
      show ([] : List ℝ) = List.drop ((p ++ [r]).length - 0) (p ++ [r])
      exact (List.drop_eq_nil_of_le (by simp)).symm
    · have hd : (p.drop (p.length - W)).length = W := by simp; omega
      have hcond : W < (p.drop (p.length - W) ++ [r]).length := by simp; omega
      rw [if_pos hcond]
      have hidx : (p.drop (p.length - W) ++ [r]).length - W = 1 := by simp; omega
      rw [hidx, List.drop_append_of_le_length (by omega : 1 ≤ (p.drop (p.length - W)).length),
        List.drop_drop,
        show (p ++ [r]).length - W = p.length + 1 - W by simp,
        List.drop_append_of_le_length (by omega : p.length + 1 - W ≤ p.length),
        show p.length - W + 1 = p.length + 1 - W by omega]

lemma ingestSym_history (stream : List ℝ) (now ttl : ℝ) (W : ℕ) :
    (ingestSym stream now ttl W).history = stream.drop (stream.length - W) := by
  suffices h : ∀ (str p : List ℝ) (st : SymState),
      st.history = p.drop (p.length - W) →
      (str.foldl (fun st r => processRate st r now ttl W) st).history
        = (p ++ str).drop ((p ++ str).length - W) by
    have := h stream [] ⟨none, [], none⟩ (by simp)
    simpa [ingestSym] using this
  intro str
  induction str with
  | nil =>
    intro p st hst
    simpa using hst
  | cons r rest ih =>
    intro p st hst
    have hst2 : (processRate st r now ttl W).history
        = (p ++ [r]).drop ((p ++ [r]).length - W) := by
      rw [processRate_history, hst, pushWindow_drop]
    have := ih (p ++ [r]) (processRate st r now ttl W) hst2
    simpa [List.append_assoc] using this

lemma pushWindow_small (hist : List ℝ) (r : ℝ) (W : ℕ)
    (h : hist.length + 1 ≤ W) : pushWindow hist r W = hist ++ [r] := by
  unfold pushWindow
  rw [if_neg (by simp; omega)]

lemma processRate_unchanged (st : SymState) (r now ttl : ℝ) (W : ℕ)
    (h : ¬ |r - st.current_rate.getD r| > 1e-9) :
    processRate st r now ttl W = ⟨some r, pushWindow st.history r W, st.champion⟩ := by
  simp only [processRate]
  rw [if_neg h]

lemma processRate_changed (st : SymState) (r now ttl : ℝ) (W : ℕ)
    (h : |r - st.current_rate.getD r| > 1e-9) :
    processRate st r now ttl W =
      ⟨some r, pushWindow st.history r W,
        calcVolatilityUpd (pushWindow st.history r W) st.champion
          (st.current_rate.getD r) r now ttl⟩ := by
  simp only [processRate]
  rw [if_pos h]

lemma calcVolatilityStats_short (history : List ℝ) (new_rate : ℝ)
    (h : history.length < 3) : calcVolatilityStats history new_rate = none := by
  unfold calcVolatilityStats
  rw [if_pos h]

lemma calcVolatilityStats_concat (hist : List ℝ) (r : ℝ) (h2 : 2 ≤ hist.length)
    (hsd : ¬ sampleStd hist < 1e-10) :
    calcVolatilityStats (hist ++ [r]) r =
      some ((r - sampleMean hist) / sampleStd hist, sampleMean hist, sampleStd hist) := by
  unfold calcVolatilityStats
  rw [if_neg (by simp; omega)]
  simp only [List.dropLast_concat]
  rw [if_neg (by omega), if_neg hsd]

/- ====================  claims  ==================== -/

/-- C9: the host cursor advances round-robin (wrapping) by exactly one
position on every connection failure, so with the host list
[fstream, fstream1, fstream2] and the cursor initially on fstream
(index 0), three consecutive connection failures select fstream1,
fstream2 and fstream again, in that order. -/
theorem C9_host_rotation_round_robin :
    (∀ i : ℕ, switchToNextHost i < BACKUP_HOSTS.length)
    ∧ currentHostOf 0 = "fstream.binance.com"
    ∧ currentHostOf (switchToNextHost 0) = "fstream1.binance.com"
    ∧ currentHostOf (switchToNextHost (switchToNextHost 0)) = "fstream2.binance.com"
    ∧ currentHostOf (switchToNextHost (switchToNextHost (switchToNextHost 0)))
        = "fstream.binance.com" := by
  refine ⟨fun i => Nat.mod_lt _ (by decide), rfl, rfl, rfl, rfl⟩

/-- C10: once BusinessCore.stop() has run after a start(), every further
start() leaves the state unchanged (the thread handle is never reset to
None, so the `ranking_thread is None` branch cannot be taken again) and the
stop event stays set, so no new ranking loop is started: the core is not
restartable. -/
theorem C10_core_not_restartable :
    ∀ s : CoreLifecycle,
      (coreStart s).ranking_thread.isSome = true
      ∧ (coreStop s).ranking_thread = s.ranking_thread
      ∧ coreStart (coreStop (coreStart s)) = coreStop (coreStart s)
      ∧ (coreStop (coreStart s)).stop_event = true := by
  intro s
  obtain ⟨rt, se⟩ := s
  cases rt <;> simp [coreStart, coreStop]

/-- C8 counterexample: a frame that fails to decode still increments the
message counter (the counter is incremented before json.loads runs), so the
counter does not count exactly the successfully decoded messages: after one
undecodable frame the counter is 1 while 0 messages were decoded. -/
theorem C8_counterexample_bad_frame_counted :
    (processMessage (⟨0, []⟩ : MsgLoopState ℕ) Frame.undecodable).message_count = 1
    ∧ (processMessage (⟨0, []⟩ : MsgLoopState ℕ) Frame.undecodable).handled = []
    ∧ (processMessage (⟨0, []⟩ : MsgLoopState ℕ) Frame.undecodable).message_count ≠
        (processMessage (⟨0, []⟩ : MsgLoopState ℕ) Frame.undecodable).handled.length := by
  refine ⟨rfl, rfl, by decide⟩

/-- C8 (amended): for every received frame, a decode failure is logged and
the receive loop continues — every frame of the stream is processed and a
single undecodable frame never terminates the connection — and the handler
is invoked exactly on the successfully decoded payloads, in order; the
message counter, however, counts every received frame (it is incremented
before the decode is attempted), not only the successfully decoded ones. -/
theorem C8_decode_failure_skipped_amended :
    ∀ (α : Type) (st : MsgLoopState α) (frames : List (Frame α)),
      (processMessages st frames).message_count = st.message_count + frames.length
      ∧ (processMessages st frames).handled
          = st.handled ++ frames.filterMap Frame.payload := by
  intro α st frames
  induction frames generalizing st with
  | nil => simp [processMessages]
  | cons f rest ih =>
    obtain ⟨ihc, ihh⟩ := ih (processMessage st f)
    have hstep : processMessages st (f :: rest)
        = processMessages (processMessage st f) rest := rfl
    cases f with
    | decoded a =>
      refine ⟨?_, ?_⟩
      · rw [hstep, ihc]
        simp [processMessage]
        omega
      · rw [hstep, ihh]
        simp [processMessage, Frame.payload]
    | undecodable =>
      refine ⟨?_, ?_⟩
      · rw [hstep, ihc]
        simp [processMessage]
        omega
      · rw [hstep, ihh]
        simp [processMessage, Frame.payload]

/-- C6: for every symbol and after every ingest operation the retained
history is exactly the most recent W observations of the stream (FIFO
eviction of the oldest), so its length never exceeds the configured window
size W, and once more than W points have been ingested the length is
exactly W. -/
theorem C6_window_bounded_fifo :
    ∀ (stream : List ℝ) (now ttl : ℝ) (W : ℕ),
      (ingestSym stream now ttl W).history = stream.drop (stream.length - W)
      ∧ (ingestSym stream now ttl W).history.length ≤ W
      ∧ (W ≤ stream.length → (ingestSym stream now ttl W).history.length = W) := by
  intro stream now ttl W
  have h := ingestSym_history stream now ttl W
  refine ⟨h, ?_, fun hW => ?_⟩
  · rw [h]
    simp
    omega
  · rw [h]
    simp
    omega

/-- C6 witness: ingesting the 5-point stream [1,2,3,4,5] with window size 3
retains exactly the 3 most recent points [3,4,5]. -/
theorem C6_window_bounded_fifo_witness :
    (3 : ℕ) ≤ ([1, 2, 3, 4, 5] : List ℝ).length
    ∧ (ingestSym [1, 2, 3, 4, 5] 0 900 3).history = [3, 4, 5]
    ∧ (ingestSym [1, 2, 3, 4, 5] 0 900 3).history.length = 3 := by
  obtain ⟨h1, -, h3⟩ := C6_window_bounded_fifo [1, 2, 3, 4, 5] 0 900 3
  exact ⟨by norm_num, by rw [h1]; rfl, h3 (by norm_num)⟩

/-- C4: the deviation score is |(current − mean) / stdDev| where the
historical partition is every retained point except the most recent, the
mean is the sample mean and the standard deviation uses the n−1 divisor; in
particular the historical partition [1,2,3] has mean 2 and sample standard
deviation exactly 1, and the window [1,2,3,5] scores |(5−2)/1| = 3. -/
theorem C4_deviation_score_formula :
    (∀ history : List ℝ, 3 ≤ history.length →
        ¬ sampleStd history.dropLast < 1e-10 →
        calcCurrentZscore history =
          |(history.getLast?.getD 0 - sampleMean history.dropLast)
            / sampleStd history.dropLast|)
    ∧ sampleMean [1, 2, 3] = 2
    ∧ sampleStd [1, 2, 3] = 1
    ∧ calcCurrentZscore [1, 2, 3, 5] = |((5 : ℝ) - 2) / 1| := by
  refine ⟨?_, sampleMean_123, sampleStd_123, ?_⟩
  · intro history h3 hsd
    unfold calcCurrentZscore
    rw [if_neg (by omega)]
    have h2 : ¬ history.dropLast.length < 2 := by
      rw [List.length_dropLast]; omega
    simp only [h2, if_false, hsd]
  · rw [calcCurrentZscore_1235]
    norm_num

/-- C4 witness: the formula conjunct applied to the concrete window
[1,2,3,5], whose historical partition [1,2,3] has sample standard
deviation 1 (well above the 1e-10 guard). -/
theorem C4_deviation_score_formula_witness :
    3 ≤ ([1, 2, 3, 5] : List ℝ).length
    ∧ ¬ sampleStd ([1, 2, 3, 5] : List ℝ).dropLast < 1e-10
    ∧ calcCurrentZscore [1, 2, 3, 5] =
        |(([1, 2, 3, 5] : List ℝ).getLast?.getD 0
            - sampleMean ([1, 2, 3, 5] : List ℝ).dropLast)
          / sampleStd ([1, 2, 3, 5] : List ℝ).dropLast| := by
  have hsd : ¬ sampleStd ([1, 2, 3, 5] : List ℝ).dropLast < 1e-10 := by
    rw [show (([1, 2, 3, 5] : List ℝ).dropLast) = [1, 2, 3] from rfl]
    exact sampleStd_123_ge
  exact ⟨by norm_num, hsd,
    C4_deviation_score_formula.1 [1, 2, 3, 5] (by norm_num) hsd⟩

/-- C5: no deviation score is produced (and the champion record is not
touched) while the retained history has fewer than 3 points, the historical
partition fewer than 2 points, or the historical sample standard deviation
is below the 1e-10 epsilon; for a stream of three pairwise-distinct values
(each change above the 1e-9 tick filter, the first two far enough apart for
the epsilon guard) the score and the first champion record appear at
exactly the 3rd observed value and not before. -/
theorem C5_no_score_before_third_point :
    (∀ (history : List ℝ) (new_rate : ℝ),
        history.length < 3 ∨ history.dropLast.length < 2
          ∨ sampleStd history.dropLast < 1e-10 →
        calcVolatilityStats history new_rate = none)
    ∧ (∀ (r1 r2 r3 now ttl : ℝ) (W : ℕ), 3 ≤ W →
        |r2 - r1| > 1e-9 → |r3 - r2| > 1e-9 → ¬ sampleStd [r1, r2] < 1e-10 →
        (ingestSym [r1] now ttl W).champion = none
        ∧ (ingestSym [r1, r2] now ttl W).champion = none
        ∧ ∃ rec : ChampionRecord,
            (ingestSym [r1, r2, r3] now ttl W).champion = some rec
            ∧ rec.max_volatility
                = |(r3 - sampleMean [r1, r2]) / sampleStd [r1, r2]|) := by
  constructor
  · intro history new_rate h
    simp only [calcVolatilityStats]
    split_ifs with a b c
    · rfl
    · rfl
    · rfl
    · exfalso
      rcases h with h | h | h
      exacts [a h, b h, c h]
  · intro r1 r2 r3 now ttl W hW h12 h23 hsd
    have hpw1 : pushWindow [] r1 W = [r1] := pushWindow_small [] r1 W (by simp; omega)
    have hs1 : ingestSym [r1] now ttl W = ⟨some r1, [r1], none⟩ := by
      show processRate ⟨none, [], none⟩ r1 now ttl W = _
      rw [processRate_unchanged _ _ _ _ _ (by simp; norm_num)]
      rw [show (⟨none, [], none⟩ : SymState).history = [] from rfl, hpw1]
    have hpw2 : pushWindow [r1] r2 W = [r1, r2] := pushWindow_small [r1] r2 W (by simp; omega)
    have hupd2 : calcVolatilityUpd [r1, r2] none r1 r2 now ttl = none := by
      unfold calcVolatilityUpd
      rw [calcVolatilityStats_short _ _ (by norm_num)]
    have hs2 : ingestSym [r1, r2] now ttl W = ⟨some r2, [r1, r2], none⟩ := by
      show processRate (ingestSym [r1] now ttl W) r2 now ttl W = _
      rw [hs1, processRate_changed _ _ _ _ _ (by simpa using h12)]
      rw [show (⟨some r1, [r1], none⟩ : SymState).history = [r1] from rfl, hpw2]
      rw [show (⟨some r1, [r1], none⟩ : SymState).champion = none from rfl]
      rw [show (⟨some r1, [r1], none⟩ : SymState).current_rate.getD r2 = r1 from rfl]
      rw [hupd2]
    have hpw3 : pushWindow [r1, r2] r3 W = [r1, r2, r3] :=
      pushWindow_small [r1, r2] r3 W (by simp; omega)
    have hstats : calcVolatilityStats [r1, r2, r3] r3 =
        some ((r3 - sampleMean [r1, r2]) / sampleStd [r1, r2],
          sampleMean [r1, r2], sampleStd [r1, r2]) := by
      rw [show ([r1, r2, r3] : List ℝ) = [r1, r2] ++ [r3] from rfl]
      exact calcVolatilityStats_concat [r1, r2] r3 (by norm_num) hsd
    have hupd3 : calcVolatilityUpd [r1, r2, r3] none r2 r3 now ttl =
        some (champStep none |(r3 - sampleMean [r1, r2]) / sampleStd [r1, r2]|
          ((r3 - sampleMean [r1, r2]) / sampleStd [r1, r2])
          (sampleMean [r1, r2]) (sampleStd [r1, r2]) r2 r3 now ttl) := by
      unfold calcVolatilityUpd
      rw [hstats]
    have hs3 : ingestSym [r1, r2, r3] now ttl W =
        ⟨some r3, [r1, r2, r3],
          some (champStep none |(r3 - sampleMean [r1, r2]) / sampleStd [r1, r2]|
            ((r3 - sampleMean [r1, r2]) / sampleStd [r1, r2])
            (sampleMean [r1, r2]) (sampleStd [r1, r2]) r2 r3 now ttl)⟩ := by
      show processRate (ingestSym [r1, r2] now ttl W) r3 now ttl W = _
      rw [hs2, processRate_changed _ _ _ _ _ (by simpa using h23)]
      rw [show (⟨some r2, [r1, r2], none⟩ : SymState).history = [r1, r2] from rfl, hpw3]
      rw [show (⟨some r2, [r1, r2], none⟩ : SymState).champion = none from rfl]
      rw [show (⟨some r2, [r1, r2], none⟩ : SymState).current_rate.getD r3 = r2 from rfl]
      rw [hupd3]
    refine ⟨by rw [hs1], by rw [hs2], ⟨_, by rw [hs3], rfl⟩⟩

/-- C5 witness: the stream 1, 2, 4 (consecutive changes 1 and 2, both above
the 1e-9 tick filter; historical partition [1,2] with sample standard
deviation sqrt(1/2), above the 1e-10 epsilon) with the configured window
size 512: no champion after the first two points, a champion record with
score |(4 − 1.5)/sqrt(1/2)| at the third. -/
theorem C5_no_score_before_third_point_witness :
    (ingestSym [1, 2] 0 900 MOVING_AVERAGE_WINDOW).champion = none
    ∧ ∃ rec : ChampionRecord,
        (ingestSym [1, 2, 4] 0 900 MOVING_AVERAGE_WINDOW).champion = some rec
        ∧ rec.max_volatility = |((4 : ℝ) - sampleMean [1, 2]) / sampleStd [1, 2]| := by
  obtain ⟨-, h2, h3⟩ :=
    C5_no_score_before_third_point.2 1 2 4 0 900 MOVING_AVERAGE_WINDOW
      (by norm_num [MOVING_AVERAGE_WINDOW]) (by norm_num) (by norm_num) sampleStd_12_ge
  exact ⟨h2, h3⟩

/-- C3: within a TTL window champion replacement is monotonic: an unexpired
record is replaced only by a strictly greater score (equal or smaller
scores keep the record, only refreshing its age), an expired record is
discarded before the comparison so that any new score then creates a fresh
record, and feeding the scores 1.0, 0.5, 2.0, 1.8 at times 0, 1, 2, 3
within one 900s TTL yields the champion progression 1.0 then 2.0. -/
theorem C3_champion_replacement_monotonic :
    (∀ (r : ChampionRecord) (vol z ma sd oldR newR now ttl : ℝ),
        ¬ now - r.champion_timestamp > ttl → ¬ vol > r.max_volatility →
        (champStep (some r) vol z ma sd oldR newR now ttl).max_volatility
          = r.max_volatility)
    ∧ (∀ (r : ChampionRecord) (vol z ma sd oldR newR now ttl : ℝ),
        ¬ now - r.champion_timestamp > ttl → vol > r.max_volatility →
        champStep (some r) vol z ma sd oldR newR now ttl
          = ⟨vol, z, ma, sd, oldR, newR, now, 0⟩)
    ∧ (∀ (r : ChampionRecord) (vol z ma sd oldR newR now ttl : ℝ),
        now - r.champion_timestamp > ttl →
        champStep (some r) vol z ma sd oldR newR now ttl
          = ⟨vol, z, ma, sd, oldR, newR, now, 0⟩)
    ∧ ((champStep none 1 0 0 0 0 0 0 900).max_volatility = 1
       ∧ (champStep (some (champStep none 1 0 0 0 0 0 0 900))
            0.5 0 0 0 0 0 1 900).max_volatility = 1
       ∧ (champStep (some (champStep (some (champStep none 1 0 0 0 0 0 0 900))
            0.5 0 0 0 0 0 1 900)) 2 0 0 0 0 0 2 900).max_volatility = 2
       ∧ (champStep (some (champStep (some (champStep (some (champStep none
            1 0 0 0 0 0 0 900)) 0.5 0 0 0 0 0 1 900)) 2 0 0 0 0 0 2 900))
            1.8 0 0 0 0 0 3 900).max_volatility = 2) := by
  have hkeep : ∀ (r : ChampionRecord) (vol z ma sd oldR newR now ttl : ℝ),
      ¬ now - r.champion_timestamp > ttl → ¬ vol > r.max_volatility →
      champStep (some r) vol z ma sd oldR newR now ttl
        = { r with champion_age_hours := (now - r.champion_timestamp) / 3600 } := by
    intro r vol z ma sd oldR newR now ttl hfresh hle
    simp only [champStep]
    rw [show expireChampion (some r) now ttl = some r from by
      simp only [expireChampion]; rw [if_neg hfresh]]
    show (if vol > r.max_volatility then _ else _) = _
    rw [if_neg hle]
  have hrepl : ∀ (r : ChampionRecord) (vol z ma sd oldR newR now ttl : ℝ),
      ¬ now - r.champion_timestamp > ttl → vol > r.max_volatility →
      champStep (some r) vol z ma sd oldR newR now ttl
        = ⟨vol, z, ma, sd, oldR, newR, now, 0⟩ := by
    intro r vol z ma sd oldR newR now ttl hfresh hgt
    simp only [champStep]
    rw [show expireChampion (some r) now ttl = some r from by
      simp only [expireChampion]; rw [if_neg hfresh]]
    show (if vol > r.max_volatility then _ else _) = _
    rw [if_pos hgt]
  have hexp : ∀ (r : ChampionRecord) (vol z ma sd oldR newR now ttl : ℝ),
      now - r.champion_timestamp > ttl →
      champStep (some r) vol z ma sd oldR newR now ttl
        = ⟨vol, z, ma, sd, oldR, newR, now, 0⟩ := by
    intro r vol z ma sd oldR newR now ttl hold
    simp only [champStep]
    rw [show expireChampion (some r) now ttl = none from by
      simp only [expireChampion]; rw [if_pos hold]]
  refine ⟨fun r vol z ma sd oldR newR now ttl h1 h2 => by rw [hkeep r vol z ma sd oldR newR now ttl h1 h2],
    hrepl, hexp, ?_⟩
  have e1 : champStep none 1 0 0 0 0 0 0 900 = ⟨1, 0, 0, 0, 0, 0, 0, 0⟩ := rfl
  have e2 : champStep (some (champStep none 1 0 0 0 0 0 0 900)) 0.5 0 0 0 0 0 1 900
      = ⟨1, 0, 0, 0, 0, 0, 0, (1 - 0) / 3600⟩ := by
    rw [e1, hkeep _ _ _ _ _ _ _ _ _ (by norm_num) (by norm_num)]
  have e3 : champStep (some (champStep (some (champStep none 1 0 0 0 0 0 0 900))
      0.5 0 0 0 0 0 1 900)) 2 0 0 0 0 0 2 900 = ⟨2, 0, 0, 0, 0, 0, 2, 0⟩ := by
    rw [e2, hrepl _ _ _ _ _ _ _ _ _ (by norm_num) (by norm_num)]
  have e4 : champStep (some (champStep (some (champStep (some (champStep none
      1 0 0 0 0 0 0 900)) 0.5 0 0 0 0 0 1 900)) 2 0 0 0 0 0 2 900))
      1.8 0 0 0 0 0 3 900 = ⟨2, 0, 0, 0, 0, 0, 2, (3 - 2) / 3600⟩ := by
    rw [e3, hkeep _ _ _ _ _ _ _ _ _ (by norm_num) (by norm_num)]
  exact ⟨by rw [e1], by rw [e2], by rw [e3], by rw [e4]⟩

/-- C3 witness: an unexpired record with score 2 queried with a smaller
score 1.5 at time 10 (TTL 900) keeps its score 2. -/
theorem C3_champion_replacement_monotonic_witness :
    ¬ (10 : ℝ) - (⟨2, 0, 0, 0, 0, 0, 0, 0⟩ : ChampionRecord).champion_timestamp > 900
    ∧ ¬ (1.5 : ℝ) > (⟨2, 0, 0, 0, 0, 0, 0, 0⟩ : ChampionRecord).max_volatility
    ∧ (champStep (some ⟨2, 0, 0, 0, 0, 0, 0, 0⟩) 1.5 0 0 0 0 0 10 900).max_volatility
        = (⟨2, 0, 0, 0, 0, 0, 0, 0⟩ : ChampionRecord).max_volatility := by
  refine ⟨by norm_num, by norm_num, ?_⟩
  exact C3_champion_replacement_monotonic.1 ⟨2, 0, 0, 0, 0, 0, 0, 0⟩ 1.5 0 0 0 0 0 10 900
    (by norm_num) (by norm_num)

/-- C7: each ranking recomputation sorts the positively-scored symbols
descending by score (ties broken by the sort's fixed deterministic order),
truncates to the top K (K = TOP_RANKING_COUNT = 5), and replaces the
published snapshot only when the ordered symbol list differs, so running
the recomputation twice in a row from the same inputs yields exactly the
state of running it once (the second pass does not mutate the snapshot). -/
theorem C7_ranking_sorted_truncated_stable :
    ∀ (s : CoreState) (now ttl : ℝ) (K : ℕ),
      List.Sorted rankDescRel (sortByScoreDesc (rankingData s now ttl))
      ∧ (newTop5 s now ttl K).length ≤ K
      ∧ updateTop5Ranking (updateTop5Ranking s now ttl K) now ttl K
          = updateTop5Ranking s now ttl K
      ∧ TOP_RANKING_COUNT = 5 := by
  intro s now ttl K
  refine ⟨List.sorted_insertionSort rankDescRel _, ?_, ?_, rfl⟩
  · unfold newTop5
    simp [List.length_take]
  · by_cases hE : (rankingData s now ttl).isEmpty = true
    · have h1 : updateTop5Ranking s now ttl K = s := by
        simp only [updateTop5Ranking]
        rw [if_pos hE]
      rw [h1, h1]
    · have hfix : ∀ t : CoreState, t.current_rates = s.current_rates →
          t.rate_history = s.rate_history → t.champion_records = s.champion_records →
          rankingData t now ttl = rankingData s now ttl := by
        intro t h1 h2 h3
        exact rankingData_eq_of now ttl h1 h2 h3
      set u := updateTop5Ranking s now ttl K with hu
      have hcr := updateTop5Ranking_current_rates s now ttl K
      have hrh := updateTop5Ranking_rate_history s now ttl K
      have hch := updateTop5Ranking_champion_records s now ttl K
      have hrd : rankingData u now ttl = rankingData s now ttl := hfix u hcr hrh hch
      have hnt : newTop5 u now ttl K = newTop5 s now ttl K :=
        newTop5_eq_of now ttl K hcr hrh hch
      have htop : u.top5_symbols = newTop5 s now ttl K :=
        updateTop5Ranking_top5_of_ne hE
      simp only [updateTop5Ranking]
      rw [if_neg (by rw [hrd]; exact hE)]
      rw [if_neg (by rw [hnt, htop]; exact fun h => h rfl)]

/-- C2 counterexample: in a reachable state where the only symbol's champion
has expired and its live score is 0, the published ranking still lists that
symbol; the ranking recomputation leaves the state unchanged (its
`if ranking_data:` guard skips the update when no symbol has a positive
score), so after the recomputation the snapshot still contains a symbol
whose currently-derived score is not strictly positive. -/
theorem C2_counterexample_stale_symbol_lingers :
    updateTop5Ranking staleState 1000 900 5 = staleState
    ∧ staleState.top5_symbols = ["AAAUSDT"]
    ∧ reportedScore staleState 1000 900 "AAAUSDT" = 0 := by
  refine ⟨?_, rfl, reportedScore_staleState⟩
  simp only [updateTop5Ranking]
  rw [if_pos (by rw [rankingData_staleState]; rfl)]

/-- C2 (amended): after a ranking recomputation whose ranking_data is
non-empty (at least one symbol derives a positive score), the published
snapshot contains only symbols whose derived score at that recomputation
was strictly positive; when every score is non-positive or absent the
recomputation leaves the previous snapshot in place, so stale symbols can
then linger. -/
theorem C2_ranking_contains_only_positive_amended :
    ∀ (s : CoreState) (now ttl : ℝ) (K : ℕ),
      (rankingData s now ttl).isEmpty = false →
      ∀ sym ∈ (updateTop5Ranking s now ttl K).top5_symbols,
        0 < reportedScore s now ttl sym := by
  intro s now ttl K hne sym hmem
  rw [updateTop5Ranking_top5_of_ne (by rw [hne]; exact Bool.false_ne_true)] at hmem
  exact mem_newTop5_pos hmem

/-- C2 witness: the amended theorem applied to a state whose only symbol has
live score 3: the recomputed snapshot is non-trivial and each of its
symbols has a strictly positive score. -/
theorem C2_ranking_contains_only_positive_amended_witness :
    (rankingData posState 1000 900).isEmpty = false
    ∧ ∀ sym ∈ (updateTop5Ranking posState 1000 900 5).top5_symbols,
        0 < reportedScore posState 1000 900 sym := by
  have hne : (rankingData posState 1000 900).isEmpty = false := by
    rw [rankingData_posState]; rfl
  exact ⟨hne, C2_ranking_contains_only_positive_amended posState 1000 900 5 hne⟩

/-- C1 counterexample: a state whose only symbol holds an expired champion
record (created at time 0, queried at time 1000 with TTL 900) and whose
live recomputation is 3, strictly positive.  The reported score is indeed
the live value 3, but the ranking recomputation establishes no fresh
ChampionRecord: the champion table after the update still holds exactly the
stale record with timestamp 0, not a fresh one — contradicting the claim
that a fresh ChampionRecord is established whenever the live score of an
expired-champion symbol is positive. -/
theorem C1_counterexample_no_fresh_champion :
    ¬ (1000 : ℝ) - expiredRec.champion_timestamp ≤ 900
    ∧ reportedScore expiredState 1000 900 "AAAUSDT" = 3
    ∧ (0 : ℝ) < 3
    ∧ (updateTop5Ranking expiredState 1000 900 5).champion_records
        = [("AAAUSDT", expiredRec)]
    ∧ expiredRec.champion_timestamp = 0 := by
  refine ⟨by simp [expiredRec]; norm_num, reportedScore_expiredState, by norm_num, ?_, rfl⟩
  rw [updateTop5Ranking_champion_records]
  rfl

/-- C1 (amended): the score used for ranking is the ChampionRecord's score
while the record's age is within the TTL, and reverts to the live
recomputation once the record is expired (or absent); but the ranking
recomputation itself never creates or replaces a ChampionRecord — a fresh
record appears only when the ingest path next recomputes volatility for the
symbol, and then the expired record is discarded and the new score is
stored unconditionally, whatever its value. -/
theorem C1_reported_score_amended :
    (∀ (s : CoreState) (now ttl : ℝ) (sym : String) (ci : ChampionRecord),
        lookupChampion s sym = some ci → now - ci.champion_timestamp ≤ ttl →
        reportedScore s now ttl sym = ci.max_volatility)
    ∧ (∀ (s : CoreState) (now ttl : ℝ) (sym : String) (ci : ChampionRecord),
        lookupChampion s sym = some ci → ¬ now - ci.champion_timestamp ≤ ttl →
        reportedScore s now ttl sym = currentZscoreOf s sym)
    ∧ (∀ (s : CoreState) (now ttl : ℝ) (sym : String),
        lookupChampion s sym = none →
        reportedScore s now ttl sym = currentZscoreOf s sym)
    ∧ (∀ (s : CoreState) (now ttl : ℝ) (K : ℕ),
        (updateTop5Ranking s now ttl K).champion_records = s.champion_records)
    ∧ (∀ (history : List ℝ) (rec : ChampionRecord) (old_rate new_rate now ttl z ma sd : ℝ),
        calcVolatilityStats history new_rate = some (z, ma, sd) →
        now - rec.champion_timestamp > ttl →
        calcVolatilityUpd history (some rec) old_rate new_rate now ttl
          = some ⟨|z|, z, ma, sd, old_rate, new_rate, now, 0⟩) := by
  refine ⟨?_, ?_, ?_, updateTop5Ranking_champion_records, ?_⟩
  · intro s now ttl sym ci hlc hin
    unfold reportedScore
    rw [hlc]
    show (if now - ci.champion_timestamp ≤ ttl then ci.max_volatility
      else currentZscoreOf s sym) = ci.max_volatility
    rw [if_pos hin]
  · intro s now ttl sym ci hlc hout
    unfold reportedScore
    rw [hlc]
    show (if now - ci.champion_timestamp ≤ ttl then ci.max_volatility
      else currentZscoreOf s sym) = currentZscoreOf s sym
    rw [if_neg hout]
  · intro s now ttl sym hlc
    unfold reportedScore
    rw [hlc]
  · intro history rec old_rate new_rate now ttl z ma sd hstats hexp
    unfold calcVolatilityUpd
    rw [hstats]
    simp only [champStep]
    rw [show expireChampion (some rec) now ttl = none from by
      simp only [expireChampion]; rw [if_pos hexp]]

/-- C1 witness: the expired-record conjunct applied to the concrete expired
state: the champion lookup yields the record with timestamp 0, the query
time 1000 exceeds the 900s TTL, and the reported score equals the live
recomputation. -/
theorem C1_reported_score_amended_witness :
    lookupChampion expiredState "AAAUSDT" = some expiredRec
    ∧ ¬ (1000 : ℝ) - expiredRec.champion_timestamp ≤ 900
    ∧ reportedScore expiredState 1000 900 "AAAUSDT"
        = currentZscoreOf expiredState "AAAUSDT" := by
  have hexp : ¬ (1000 : ℝ) - expiredRec.champion_timestamp ≤ 900 := by
    simp [expiredRec]; norm_num
  exact ⟨lookupChampion_expiredState, hexp,
    C1_reported_score_amended.2.1 expiredState 1000 900 "AAAUSDT" expiredRec
      lookupChampion_expiredState hexp⟩
